import Mathlib

/-!
Shallow embedding of the DBPF container reader (dbpf.py).

The byte source (an open file object in the original) is modelled as a
`List Nat` of byte values together with an explicit read position; a
`read(n)` at position `pos` returns the bytes `[pos, min (pos+n) len)`
and advances the position by the number of bytes actually returned,
exactly as a Python binary file does (in particular a read past the end
of the source silently returns fewer bytes, and a read with a negative
count returns all remaining bytes).

Python exceptions are modelled with an explicit error type and `Except`:
`struct.unpack` raises `struct.error` when the buffer length differs
from the struct size, `int(a / b)` with `b = 0` raises the built-in
`ZeroDivisionError`, `range(a, b, 0)` raises `ValueError`, and the
reader itself raises `DBPFException` on a bad magic signature.

Machine integers: all header and entry fields are unsigned values
decoded from bytes, kept as `Nat`; the one subtraction the code
performs (`indexRecordSizeBytes - 4`) is Python big-integer
subtraction, so the result is an `Int` that can go negative (Python
ints do not wrap).  `int(size / count)` on operands of magnitude below
2^32 equals integer division truncated toward zero (`Int.tdiv`): the
float quotient is correctly rounded and cannot cross an integer
boundary at these magnitudes.
-/

/-- Exceptions the Python code can raise while decoding. -/
inductive PyError where
  /-- struct.error: unpack buffer length differs from the struct size. -/
  | structError
  /-- ZeroDivisionError from int(size / count) with count = 0. -/
  | zeroDivision
  /-- ValueError: range() arg 3 must not be zero. -/
  | valueError
  /-- DBPFException, raised with the message "Not a DBPF file". -/
  | dbpfException
deriving Repr, DecidableEq

/-- Little-endian 16-bit field at byte offset i (struct code H). -/
def le16At (b : List Nat) (i : Nat) : Nat :=
  b.getD i 0 + 256 * b.getD (i + 1) 0

/-- Little-endian 32-bit field at byte offset i (struct code I). -/
def le32At (b : List Nat) (i : Nat) : Nat :=
  le16At b i + 65536 * le16At b (i + 2)

/-- Little-endian 64-bit field at byte offset i (struct code Q). -/
def le64At (b : List Nat) (i : Nat) : Nat :=
  le32At b i + 4294967296 * le32At b (i + 4)

/-- The DBPF_Header namedtuple: every field of headerTemplate after byteOrder. -/
structure Header where
  fileIdentifier : List Nat
  fileMajor : Nat
  fileMinor : Nat
  userMajor : Nat
  userMinor : Nat
  flags : Nat
  creationTime : Nat
  updatedTime : Nat
  indexRecordMajorVersion : Nat
  indexRecordEntryCount : Nat
  indexOffsetBytesV1 : Nat
  indexRecordSizeBytes : Nat
  holeIndexEntryCount : Nat
  holeIndexOffset : Nat
  holeIndexSize : Nat
  indexMinorVersion : Nat
  indexOffsetBytes : Nat
  reserved : List Nat
deriving Repr, DecidableEq

/-- The DBPF_Index namedtuple (version count offset size).  size is the one
field the code computes by subtraction, so it lives in Int. -/
structure Index where
  version : ℚ
  count : Nat
  offset : Nat
  size : Int
deriving Repr, DecidableEq

/-- The DBPF_IndexEntry namedtuple: every field of indexEntryTemplate after
byteOrder. -/
structure IndexEntry where
  mType : Nat
  mGroup : Nat
  mInstanceEx : Nat
  mInstance : Nat
  mnPosition : Nat
  mnSize : Nat
  mnSizeDecompressed : Nat
  mnCompressionType : Nat
  mnCommitted : Nat
deriving Repr, DecidableEq

/-- The external tgi.TGI resource key: an opaque Type/Group/Instance triple. -/
structure TGI where
  t : Nat
  g : Nat
  i : Nat
deriving Repr, DecidableEq

/-- The DBPF_Record namedtuple (tgi offset length raw). -/
structure Record where
  tgi : TGI
  offset : Nat
  length : Nat
  raw : List Nat
deriving Repr, DecidableEq

/-- Number of decimal digits str(n) produces. -/
def numDigits (n : Nat) : Nat := (Nat.toDigits 10 n).length

/-- The util function version(major, minor): the decimal value of the string
str(major) ++ "." ++ str(minor), i.e. digit concatenation, modelled exactly
as a rational number. -/
def version (major minor : Nat) : ℚ :=
  (major : ℚ) + (minor : ℚ) / (10 : ℚ) ^ numDigits minor

/-- The 4 magic bytes, the ASCII literal DBPF. -/
def magicBytes : List Nat := [68, 66, 80, 70]

/-- fd.read(n) at position pos: the bytes from pos, at most n of them. -/
def fdRead (src : List Nat) (pos n : Nat) : List Nat :=
  (src.drop pos).take n

/-- fd.read with a possibly negative count: Python returns all remaining
bytes when the count is negative. -/
def fdReadInt (src : List Nat) (pos : Nat) (n : Int) : List Nat :=
  if n < 0 then src.drop pos else (src.drop pos).take n.toNat

/-- HeaderStruct.unpack on a 96-byte buffer: decode every header field at its
little-endian offset (magic at 0, then fifteen u32 fields, one u64 at 64,
24 reserved bytes at 72). -/
def unpackHeader (b : List Nat) : Header where
  fileIdentifier := b.take 4
  fileMajor := le32At b 4
  fileMinor := le32At b 8
  userMajor := le32At b 12
  userMinor := le32At b 16
  flags := le32At b 20
  creationTime := le32At b 24
  updatedTime := le32At b 28
  indexRecordMajorVersion := le32At b 32
  indexRecordEntryCount := le32At b 36
  indexOffsetBytesV1 := le32At b 40
  indexRecordSizeBytes := le32At b 44
  holeIndexEntryCount := le32At b 48
  holeIndexOffset := le32At b 52
  holeIndexSize := le32At b 56
  indexMinorVersion := le32At b 60
  indexOffsetBytes := le64At b 64
  reserved := (b.drop 72).take 24

/-- IndexEntryStruct field decoding: nine little-endian fields of a 32-byte
buffer (seven u32, two u16). -/
def unpackEntryFields (b : List Nat) : IndexEntry where
  mType := le32At b 0
  mGroup := le32At b 4
  mInstanceEx := le32At b 8
  mInstance := le32At b 12
  mnPosition := le32At b 16
  mnSize := le32At b 20
  mnSizeDecompressed := le32At b 24
  mnCompressionType := le16At b 28
  mnCommitted := le16At b 30

/-- IndexEntryStruct.unpack: struct.error unless the buffer holds exactly the
struct size of 32 bytes. -/
def unpackEntry (b : List Nat) : Except PyError IndexEntry :=
  if b.length = 32 then .ok (unpackEntryFields b) else .error .structError

/-- Number of iterations of a Python for-loop over range(0, length, width),
width nonzero: the values 0, width, 2*width, ... strictly before length
(strictly after, for a negative width). -/
def rangeIters (length width : Int) : Nat :=
  if 0 < width then (length.toNat + width.toNat - 1) / width.toNat
  else ((-length).toNat + (-width).toNat - 1) / (-width).toNat

namespace DBPF

/-- DBPF.__init__: seek to 0, read the 96 header bytes, unpack them
(struct.error when fewer than 96 bytes are available), build the Header,
then raise DBPFException unless the magic field equals the DBPF literal.
On failure no Header reaches the caller. -/
def init (src : List Nat) : Except PyError Header :=
  let chunk := fdRead src 0 96
  if chunk.length = 96 then
    let hdr := unpackHeader chunk
    if hdr.fileIdentifier = magicBytes then .ok hdr else .error .dbpfException
  else .error .structError

/-- The version-dispatched raw index offset of DBPF.index: the legacy 32-bit
field for fileMajor 1, the modern 64-bit field otherwise. -/
def selectedIndexOffset (hdr : Header) : Nat :=
  if hdr.fileMajor = 1 then hdr.indexOffsetBytesV1 else hdr.indexOffsetBytes

/-- DBPF.index: the resource index descriptor, skipping the 4 leading flag
bytes of the on-disk table (offset + 4, size - 4). -/
def index (hdr : Header) : Index where
  version := version hdr.indexRecordMajorVersion hdr.indexMinorVersion
  count := hdr.indexRecordEntryCount
  offset := selectedIndexOffset hdr + 4
  size := (hdr.indexRecordSizeBytes : Int) - 4

/-- DBPF.holes: the hole table descriptor, taken unadjusted, version 0. -/
def holes (hdr : Header) : Index where
  version := 0
  count := hdr.holeIndexEntryCount
  offset := hdr.holeIndexOffset
  size := (hdr.holeIndexSize : Int)

/-- DBPF._index_width: int(idx.size / idx.count), which is truncated
division, raising ZeroDivisionError when the count is 0. -/
def _index_width (idx : Index) : Except PyError Int :=
  if idx.count = 0 then .error .zeroDivision
  else .ok (Int.tdiv idx.size (idx.count : Int))

/-- The read-and-unpack loop body of DBPF._index_entries, iterated once per
value of range(0, length, width): read width bytes at the cursor, unpack
them as one entry, advance the cursor by the bytes actually read. -/
def readEntriesLoop (src : List Nat) (width : Int) :
    Nat → Nat → Except PyError (List IndexEntry)
  | 0, _ => .ok []
  | k + 1, pos =>
    let chunk := fdReadInt src pos width
    match unpackEntry chunk with
    | .error e => .error e
    | .ok ent =>
      match readEntriesLoop src width k (pos + chunk.length) with
      | .error e => .error e
      | .ok rest => .ok (ent :: rest)

/-- DBPF._index_entries: compute the index descriptor and the entry width,
seek to the descriptor offset and run the unpack loop over
range(0, size, width); a zero width makes range itself raise ValueError. -/
def _index_entries (src : List Nat) (hdr : Header) : Except PyError (List IndexEntry) :=
  let ind := index hdr
  match _index_width ind with
  | .error e => .error e
  | .ok width =>
    if width = 0 then .error .valueError
    else readEntriesLoop src width (rangeIters ind.size width) ind.offset

/-- The Record DBPF.records builds from one index entry: seek to mnPosition,
read mnSizeDecompressed bytes (possibly fewer near the end of the source),
and attach the TGI key and the declared length. -/
def recordOf (src : List Nat) (e : IndexEntry) : Record where
  tgi := ⟨e.mType, e.mGroup, e.mInstance⟩
  offset := e.mnPosition
  length := e.mnSizeDecompressed
  raw := fdRead src e.mnPosition e.mnSizeDecompressed

/-- DBPF.records: one Record per decoded index entry, in order. -/
def records (src : List Nat) (hdr : Header) : Except PyError (List Record) :=
  match _index_entries src hdr with
  | .error e => .error e
  | .ok es => .ok (es.map (recordOf src))

end DBPF

/-- The entry decoded at an absolute position of the source. -/
def entryAt (src : List Nat) (pos : Nat) : IndexEntry :=
  unpackEntryFields (fdRead src pos 32)

/-- The n consecutive 32-byte entries decoded from an absolute position. -/
def entriesAt (src : List Nat) (pos n : Nat) : List IndexEntry :=
  (List.range n).map (fun i => entryAt src (pos + 32 * i))

/-- The exposed DBPF.version property: version(fileMajor, fileMinor).  Named
headerVersion here because the bare name version already denotes the util
function it calls. -/
def headerVersion (hdr : Header) : ℚ := version hdr.fileMajor hdr.fileMinor

/-- The exposed DBPF.user_version property: version(userMajor, userMinor). -/
def user_version (hdr : Header) : ℚ := version hdr.userMajor hdr.userMinor

/-- A benign concrete header used by the concrete instances below: magic
DBPF, format 2.1, one index entry of declared size 36 at modern offset 0. -/
def h0 : Header where
  fileIdentifier := magicBytes
  fileMajor := 2
  fileMinor := 1
  userMajor := 0
  userMinor := 0
  flags := 0
  creationTime := 0
  updatedTime := 0
  indexRecordMajorVersion := 7
  indexRecordEntryCount := 1
  indexOffsetBytesV1 := 50
  indexRecordSizeBytes := 36
  holeIndexEntryCount := 0
  holeIndexOffset := 0
  holeIndexSize := 0
  indexMinorVersion := 1
  indexOffsetBytes := 0
  reserved := List.replicate 24 0

/-- All-zero index entry, as decoded from 32 zero bytes. -/
def zeroEntry : IndexEntry := ⟨0, 0, 0, 0, 0, 0, 0, 0, 0⟩

/-- 36 zero bytes: exactly the 4 flag bytes plus one canonical entry. -/
def srcZeros36 : List Nat := List.replicate 36 0

/-- Header whose reported index size 65 is not divisible by its count 2. -/
def hdr4 : Header := { h0 with indexRecordEntryCount := 2, indexRecordSizeBytes := 69 }

/-- 100 zero bytes: room for the 4 flag bytes and three 32-byte chunks. -/
def src100 : List Nat := List.replicate 100 0

/-- A source whose single entry declares a 1000-byte payload at position 0,
while the source itself holds only 36 bytes. -/
def src8 : List Nat := List.replicate 28 0 ++ [232, 3, 0, 0, 0, 0, 0, 0]

/-- Header with declared index size 37, hence reported size 33 and inferred
width 33. -/
def hdr10 : Header := { h0 with indexRecordSizeBytes := 37 }

/-- Unfolding equation for the successor case of the entry loop. -/
theorem readEntriesLoop_succ (src : List Nat) (w : Int) (k pos : Nat) :
    DBPF.readEntriesLoop src w (k + 1) pos =
      match unpackEntry (fdReadInt src pos w) with
      | .error e => .error e
      | .ok ent =>
        match DBPF.readEntriesLoop src w k (pos + (fdReadInt src pos w).length) with
        | .error e => .error e
        | .ok rest => .ok (ent :: rest) := rfl

/-- A successful run of the entry loop returns one entry per iteration. -/
theorem readEntriesLoop_ok_length (src : List Nat) (w : Int) :
    ∀ (k pos : Nat) (es : List IndexEntry),
      DBPF.readEntriesLoop src w k pos = .ok es → es.length = k := by
  intro k
  induction k with
  | zero =>
    intro pos es h
    simp only [DBPF.readEntriesLoop] at h
    injection h with h
    rw [← h]
    rfl
  | succ k ih =>
    intro pos es h
    rw [readEntriesLoop_succ] at h
    cases hu : unpackEntry (fdReadInt src pos w) with
    | error e => rw [hu] at h; exact Except.noConfusion h
    | ok ent =>
      rw [hu] at h
      cases hr : DBPF.readEntriesLoop src w k (pos + (fdReadInt src pos w).length) with
      | error e => rw [hr] at h; exact Except.noConfusion h
      | ok rest =>
        rw [hr] at h
        injection h with h
        rw [← h]
        simp [ih _ _ hr]

/-- Splitting off the first of n consecutive decoded entries. -/
theorem entriesAt_succ (src : List Nat) (pos k : Nat) :
    entriesAt src pos (k + 1) = entryAt src pos :: entriesAt src (pos + 32) k := by
  unfold entriesAt
  rw [List.range_succ_eq_map, List.map_cons, List.map_map]
  simp only [Nat.mul_zero, Nat.add_zero]
  congr 1
  apply List.map_congr_left
  intro i _
  show entryAt src (pos + 32 * (i + 1)) = entryAt src (pos + 32 + 32 * i)
  congr 1
  ring

/-- With width 32 and the whole table inside the source, the loop decodes
the k consecutive 32-byte entries, in on-disk order. -/
theorem readEntriesLoop_width32 (src : List Nat) :
    ∀ (k pos : Nat), pos + 32 * k ≤ src.length →
      DBPF.readEntriesLoop src 32 k pos = .ok (entriesAt src pos k) := by
  intro k
  induction k with
  | zero => intro pos _; rfl
  | succ k ih =>
    intro pos h
    have hchunk : fdReadInt src pos 32 = fdRead src pos 32 := by
      simp [fdReadInt, fdRead]
    have hlen : (fdRead src pos 32).length = 32 := by
      simp only [fdRead, List.length_take, List.length_drop]
      omega
    rw [readEntriesLoop_succ, hchunk]
    rw [show unpackEntry (fdRead src pos 32) = .ok (unpackEntryFields (fdRead src pos 32)) from by
      simp [unpackEntry, hlen]]
    rw [hlen, ih (pos + 32) (by omega)]
    rw [entriesAt_succ]
    rfl

/-- Claim C1: the resource index offset is selected by format version: for
fileMajor 1 the legacy 32-bit field indexOffsetBytesV1 is used, for every
other major version the modern 64-bit field indexOffsetBytes is used. -/
theorem index_offset_selected_by_fileMajor (hdr : Header) :
    (hdr.fileMajor = 1 →
      (DBPF.index hdr).offset = hdr.indexOffsetBytesV1 + 4) ∧
    (hdr.fileMajor ≠ 1 →
      (DBPF.index hdr).offset = hdr.indexOffsetBytes + 4) := by
  constructor
  · intro h
    simp [DBPF.index, DBPF.selectedIndexOffset, h]
  · intro h
    simp [DBPF.index, DBPF.selectedIndexOffset, h]

/-- Witness for C1 at two concrete headers, one of each major version. -/
theorem index_offset_selected_by_fileMajor_witness :
    (DBPF.index { h0 with fileMajor := 1 }).offset =
      ({ h0 with fileMajor := 1 } : Header).indexOffsetBytesV1 + 4 ∧
    (DBPF.index h0).offset = h0.indexOffsetBytes + 4 :=
  ⟨(index_offset_selected_by_fileMajor { h0 with fileMajor := 1 }).1 rfl,
   (index_offset_selected_by_fileMajor h0).2 (by decide)⟩

/-- Claim C2: the reported resource-index descriptor has offset equal to the
version-selected offset plus 4 and size equal to the declared size minus 4,
with count and version taken from the header unadjusted. -/
theorem index_descriptor_adjusted_fields (hdr : Header) :
    (DBPF.index hdr).offset = DBPF.selectedIndexOffset hdr + 4 ∧
    (DBPF.index hdr).size = (hdr.indexRecordSizeBytes : Int) - 4 ∧
    (DBPF.index hdr).count = hdr.indexRecordEntryCount ∧
    (DBPF.index hdr).version =
      version hdr.indexRecordMajorVersion hdr.indexMinorVersion :=
  ⟨rfl, rfl, rfl, rfl⟩

/-- Claim C3 counterexample: with entry count 0 the width computation, and
with it index decoding, fails by raising the built-in ZeroDivisionError
coming from int(size / count); no distinct EmptyIndex error kind exists
anywhere in the program. -/
theorem empty_index_counterexample :
    DBPF._index_width (DBPF.index { h0 with indexRecordEntryCount := 0 }) =
      .error PyError.zeroDivision ∧
    DBPF._index_entries srcZeros36 { h0 with indexRecordEntryCount := 0 } =
      .error PyError.zeroDivision :=
  ⟨rfl, rfl⟩

/-- Claim C3 amended: for every container whose resource-index entry count is
0, computing the width (and hence decoding the index) fails, but with the
generic Python ZeroDivisionError raised by int(size / count), not with a
distinct EmptyIndex error kind. -/
theorem empty_index_zero_division (src : List Nat) (hdr : Header)
    (h : (DBPF.index hdr).count = 0) :
    DBPF._index_width (DBPF.index hdr) = .error PyError.zeroDivision ∧
    DBPF._index_entries src hdr = .error PyError.zeroDivision := by
  have h' : hdr.indexRecordEntryCount = 0 := h
  constructor
  · simp [DBPF._index_width, DBPF.index, h']
  · simp [DBPF._index_entries, DBPF._index_width, DBPF.index, h']

/-- Witness for the amended C3 at a concrete zero-count header. -/
theorem empty_index_zero_division_witness :
    DBPF._index_width (DBPF.index { h0 with indexRecordEntryCount := 0 }) =
      .error PyError.zeroDivision ∧
    DBPF._index_entries src100 { h0 with indexRecordEntryCount := 0 } =
      .error PyError.zeroDivision :=
  empty_index_zero_division src100 { h0 with indexRecordEntryCount := 0 } rfl

/-- Claim C7: the exposed version is the decimal formed by digit-concatenating
major and minor: major 2 minor 1 gives exactly 2.1, user_version is computed
by the same function on the user fields, and for a multi-digit minor the
result is digit concatenation (2.15), not major + minor/10 arithmetic
(which would give 3.5). -/
theorem version_digit_concatenation :
    (∀ hdr : Header,
      headerVersion hdr = version hdr.fileMajor hdr.fileMinor ∧
      user_version hdr = version hdr.userMajor hdr.userMinor) ∧
    version 2 1 = (2.1 : ℚ) ∧
    version 2 15 = (2.15 : ℚ) ∧
    version 2 15 ≠ (2 : ℚ) + 15 / 10 := by
  refine ⟨fun hdr => ⟨rfl, rfl⟩, ?_, ?_, ?_⟩
  · show (2 : ℚ) + (1 : ℚ) / (10 : ℚ) ^ numDigits 1 = 2.1
    norm_num [show numDigits 1 = 1 from rfl]
  · show (2 : ℚ) + (15 : ℚ) / (10 : ℚ) ^ numDigits 15 = 2.15
    norm_num [show numDigits 15 = 2 from rfl]
  · show (2 : ℚ) + (15 : ℚ) / (10 : ℚ) ^ numDigits 15 ≠ (2 : ℚ) + 15 / 10
    norm_num [show numDigits 15 = 2 from rfl]

/-- Claim C9 counterexample: with declared index size 0 the descriptor is
still produced (DBPF.index performs no check and cannot fail), carrying the
negative size 0 - 4 = -4; no MalformedIndex error kind exists anywhere in
the program. -/
theorem index_size_underflow_counterexample :
    DBPF.index { h0 with indexRecordSizeBytes := 0 } =
      { version := version 7 1, count := 1, offset := 4, size := -4 } ∧
    (DBPF.index { h0 with indexRecordSizeBytes := 0 }).size < 0 :=
  ⟨rfl, by decide⟩

/-- Claim C9 amended: for every header whose declared index size is below 4,
the descriptor is produced anyway, with the (negative, non-wrapped) Python
integer size declaredSize - 4; no MalformedIndex failure occurs. -/
theorem index_size_underflow_negative (hdr : Header)
    (h : hdr.indexRecordSizeBytes < 4) :
    (DBPF.index hdr).size = (hdr.indexRecordSizeBytes : Int) - 4 ∧
    (DBPF.index hdr).size < 0 := by
  refine ⟨rfl, ?_⟩
  show (hdr.indexRecordSizeBytes : Int) - 4 < 0
  omega

/-- Witness for the amended C9 at a concrete declared size 0. -/
theorem index_size_underflow_negative_witness :
    (DBPF.index { h0 with indexRecordSizeBytes := 0 }).size =
      ((({ h0 with indexRecordSizeBytes := 0 } : Header).indexRecordSizeBytes : Int) - 4) ∧
    (DBPF.index { h0 with indexRecordSizeBytes := 0 }).size < 0 :=
  index_size_underflow_negative { h0 with indexRecordSizeBytes := 0 } (by decide)

/-- Claim C4 counterexample: a container whose reported index size 65 is not
divisible by its count 2 decodes without any error: the truncated width is
32, the loop runs ceil(65/32) = 3 times, and with enough source bytes all
three 32-byte unpacks succeed, so decoding returns three entries; in
particular success does not give count * width = size (2 * 32 = 64, not
65), and no IrregularIndex error kind exists anywhere in the program. -/
theorem irregular_index_counterexample :
    (DBPF.index hdr4).count = 2 ∧
    (DBPF.index hdr4).size = 65 ∧
    (65 : Int) % 2 ≠ 0 ∧
    DBPF._index_width (DBPF.index hdr4) = .ok 32 ∧
    DBPF._index_entries src100 hdr4 = .ok [zeroEntry, zeroEntry, zeroEntry] ∧
    ((DBPF.index hdr4).count : Int) * 32 ≠ (DBPF.index hdr4).size :=
  ⟨rfl, rfl, by decide, rfl, rfl, by decide⟩

/-- Claim C4 amended: no divisibility check exists; decoding computes the
truncated width int(size / count) and succeeds exactly when every chunk it
reads unpacks, in which case it yields one entry per loop iteration, i.e.
ceil(size / width) many, which need not equal the declared count. -/
theorem index_entries_ok_length (src : List Nat) (hdr : Header)
    (es : List IndexEntry) (h : DBPF._index_entries src hdr = .ok es) :
    (DBPF.index hdr).count ≠ 0 ∧
    ∃ w : Int, DBPF._index_width (DBPF.index hdr) = .ok w ∧ w ≠ 0 ∧
      es.length = rangeIters (DBPF.index hdr).size w := by
  simp only [DBPF._index_entries] at h
  split at h
  next e hw => exact Except.noConfusion h
  next w hw =>
    split at h
    next hz => exact Except.noConfusion h
    next hz =>
      have hcne : (DBPF.index hdr).count ≠ 0 := by
        intro hc
        simp only [DBPF._index_width] at hw
        rw [if_pos hc] at hw
        exact Except.noConfusion hw
      exact ⟨hcne, w, hw, hz, readEntriesLoop_ok_length src w _ _ es h⟩

/-- Witness for the amended C4 at the concrete irregular container. -/
theorem index_entries_ok_length_witness :
    (DBPF.index hdr4).count ≠ 0 ∧
    ∃ w : Int, DBPF._index_width (DBPF.index hdr4) = .ok w ∧ w ≠ 0 ∧
      ([zeroEntry, zeroEntry, zeroEntry] : List IndexEntry).length =
        rangeIters (DBPF.index hdr4).size w :=
  index_entries_ok_length src100 hdr4 [zeroEntry, zeroEntry, zeroEntry] rfl

/-- Claim C6: for every byte source holding at least the 96 header bytes,
decoding fails with the DBPFException (the InvalidFormat failure, message
"Not a DBPF file") whenever the first 4 bytes differ from the DBPF literal,
and no Header value reaches the caller; conversely a source beginning with
the DBPF literal passes the magic check and yields the decoded header. -/
theorem init_magic_check (src : List Nat) (hlen : 96 ≤ src.length) :
    (src.take 4 ≠ magicBytes →
      DBPF.init src = .error PyError.dbpfException) ∧
    (src.take 4 = magicBytes →
      DBPF.init src = .ok (unpackHeader (src.take 96))) := by
  have hchunk : fdRead src 0 96 = src.take 96 := by simp [fdRead]
  have hchunklen : (src.take 96).length = 96 := by
    rw [List.length_take]; omega
  have hid : (unpackHeader (src.take 96)).fileIdentifier = src.take 4 := by
    show (src.take 96).take 4 = src.take 4
    rw [List.take_take]
    norm_num
  constructor
  · intro hne
    simp [DBPF.init, hchunk, hchunklen, hid, hne]
  · intro heq
    simp [DBPF.init, hchunk, hchunklen, hid, heq]

/-- Witness for C6: one concrete source with a wrong magic, one with the
right magic. -/
theorem init_magic_check_witness :
    DBPF.init (List.replicate 96 7) = .error PyError.dbpfException ∧
    DBPF.init (magicBytes ++ List.replicate 92 0) =
      .ok (unpackHeader ((magicBytes ++ List.replicate 92 0).take 96)) :=
  ⟨(init_magic_check (List.replicate 96 7) (by simp)).1 (by decide),
   (init_magic_check (magicBytes ++ List.replicate 92 0)
      (by simp [magicBytes])).2 (by decide)⟩

/-- Claim C8 counterexample: an entry declaring a 1000-byte payload at
position 0 of a 36-byte source does not make extraction fail: records
succeeds, returning a Record whose raw field holds only the 36 available
bytes while its length field still claims 1000; no TruncatedRecord error
kind exists anywhere in the program. -/
theorem truncated_record_counterexample :
    DBPF.records src8 h0 =
      .ok [{ tgi := ⟨0, 0, 0⟩, offset := 0, length := 1000, raw := src8 }] ∧
    src8.length = 36 ∧
    (36 : Nat) < 1000 :=
  ⟨rfl, rfl, by decide⟩

/-- Claim C8 amended: record extraction never fails once the index has been
decoded: each Record is built by an unchecked seek-and-read, so its raw
field holds min(declared, available) bytes, silently fewer than the
declared decompressedSize when the window runs past end-of-source, while
the length field still reports the declared size. -/
theorem records_silent_truncation (src : List Nat) (hdr : Header)
    (es : List IndexEntry) (h : DBPF._index_entries src hdr = .ok es) :
    DBPF.records src hdr = .ok (es.map (DBPF.recordOf src)) ∧
    ∀ e ∈ es,
      (DBPF.recordOf src e).length = e.mnSizeDecompressed ∧
      (DBPF.recordOf src e).offset = e.mnPosition ∧
      (DBPF.recordOf src e).raw.length =
        min e.mnSizeDecompressed (src.length - e.mnPosition) := by
  constructor
  · simp [DBPF.records, h]
  · intro e _
    refine ⟨rfl, rfl, ?_⟩
    simp [DBPF.recordOf, fdRead]

/-- Witness for the amended C8 at the concrete truncated container. -/
theorem records_silent_truncation_witness :
    DBPF.records src8 h0 =
      .ok (([⟨0, 0, 0, 0, 0, 0, 1000, 0, 0⟩] : List IndexEntry).map
        (DBPF.recordOf src8)) ∧
    ∀ e ∈ ([⟨0, 0, 0, 0, 0, 0, 1000, 0, 0⟩] : List IndexEntry),
      (DBPF.recordOf src8 e).length = e.mnSizeDecompressed ∧
      (DBPF.recordOf src8 e).offset = e.mnPosition ∧
      (DBPF.recordOf src8 e).raw.length =
        min e.mnSizeDecompressed (src8.length - e.mnPosition) :=
  records_silent_truncation src8 h0 [⟨0, 0, 0, 0, 0, 0, 1000, 0, 0⟩] rfl

/-- Claim C10 counterexample: a non-canonical inferred width does not always
make decoding fail: with count 1 and reported size 33 the width is 33, the
loop runs once, and because the 36-byte source ends exactly 32 bytes after
the table offset the read of 33 bytes returns just 32, which the canonical
9-field unpack accepts, so decoding returns an entry decoded under the
non-canonical width 33. -/
theorem noncanonical_width_counterexample :
    DBPF._index_width (DBPF.index hdr10) = .ok 33 ∧
    (33 : Int) ≠ 32 ∧
    DBPF._index_entries srcZeros36 hdr10 = .ok [zeroEntry] :=
  ⟨rfl, by decide, rfl⟩

/-- Claim C10 amended: the fixed 9-field unpack only ever accepts a chunk of
exactly 32 bytes, and any width strictly between 0 and 32 makes every
iteration fail with struct.error (a read can only return at most width
bytes); but for a width above 32 the chunk actually read may be cut to
exactly 32 bytes by the end of the source, as in the counterexample, so
decoding does not always fail on a non-canonical width. -/
theorem entries_decoded_only_from_32_byte_chunks :
    (∀ (b : List Nat) (e : IndexEntry), unpackEntry b = .ok e →
      b.length = 32) ∧
    (∀ (src : List Nat) (w : Int) (k pos : Nat), 0 < w → w < 32 → 0 < k →
      DBPF.readEntriesLoop src w k pos = .error PyError.structError) := by
  constructor
  · intro b e h
    by_cases hb : b.length = 32
    · exact hb
    · rw [unpackEntry, if_neg hb] at h
      exact Except.noConfusion h
  · intro src w k pos hw hlt hk
    cases k with
    | zero => omega
    | succ k =>
      rw [readEntriesLoop_succ]
      have hchunk : (fdReadInt src pos w).length ≠ 32 := by
        have h1 : (fdReadInt src pos w).length ≤ w.toNat := by
          rw [fdReadInt, if_neg (by omega)]
          exact List.length_take_le _ _
        omega
      rw [unpackEntry, if_neg hchunk]

/-- Witness for the amended C10: the 32-byte chunk behind a concrete decoded
entry, and a concrete small-width loop failing. -/
theorem entries_decoded_only_from_32_byte_chunks_witness :
    (List.replicate 32 (0 : Nat)).length = 32 ∧
    DBPF.readEntriesLoop [] 16 1 0 = .error PyError.structError :=
  ⟨entries_decoded_only_from_32_byte_chunks.1 (List.replicate 32 0) zeroEntry rfl,
   entries_decoded_only_from_32_byte_chunks.2 [] 16 1 0 (by decide) (by decide)
     (by decide)⟩

/-- Claim C5: for a well-formed container with N canonical-width 32-byte
entries (count N, reported size 32 * N, table inside the source), index
decoding yields exactly the N consecutive entries in on-disk order, record
extraction yields exactly the N Records built from them in order, and each
Record is produced by seeking to its entry's position, with raw byte length
equal to the entry's declared decompressedSize whenever the declared window
lies inside the source. -/
theorem wellformed_index_decode_and_records (src : List Nat) (hdr : Header)
    (N : Nat) (hN : 0 < N)
    (hcount : (DBPF.index hdr).count = N)
    (hsize : (DBPF.index hdr).size = ((32 * N : Nat) : Int))
    (hbound : (DBPF.index hdr).offset + 32 * N ≤ src.length) :
    DBPF._index_entries src hdr =
      .ok (entriesAt src (DBPF.index hdr).offset N) ∧
    (entriesAt src (DBPF.index hdr).offset N).length = N ∧
    DBPF.records src hdr =
      .ok ((entriesAt src (DBPF.index hdr).offset N).map (DBPF.recordOf src)) ∧
    ∀ e ∈ entriesAt src (DBPF.index hdr).offset N,
      e.mnPosition + e.mnSizeDecompressed ≤ src.length →
        (DBPF.recordOf src e).offset = e.mnPosition ∧
        (DBPF.recordOf src e).length = e.mnSizeDecompressed ∧
        (DBPF.recordOf src e).raw.length = e.mnSizeDecompressed := by
  have hcne : (DBPF.index hdr).count ≠ 0 := by omega
  have hwidth : DBPF._index_width (DBPF.index hdr) = .ok 32 := by
    unfold DBPF._index_width
    rw [if_neg hcne, hsize, hcount]
    congr 1
    push_cast
    exact Int.mul_tdiv_cancel _ (by exact_mod_cast hN.ne')
  have hiters : rangeIters ((32 * N : Nat) : Int) 32 = N := by
    unfold rangeIters
    rw [if_pos (by norm_num)]
    rw [show ((32 : Int)).toNat = 32 from rfl, Int.toNat_natCast]
    omega
  have hentries : DBPF._index_entries src hdr =
      .ok (entriesAt src (DBPF.index hdr).offset N) := by
    simp only [DBPF._index_entries, hwidth]
    rw [if_neg (show (32 : Int) ≠ 0 by norm_num)]
    rw [hsize, hiters]
    exact readEntriesLoop_width32 src N (DBPF.index hdr).offset (by omega)
  refine ⟨hentries, ?_, ?_, ?_⟩
  · simp [entriesAt]
  · simp [DBPF.records, hentries]
  · intro e _ hb
    refine ⟨rfl, rfl, ?_⟩
    simp only [DBPF.recordOf, fdRead, List.length_take, List.length_drop]
    omega

/-- Witness for C5 at a concrete well-formed one-entry container. -/
theorem wellformed_index_decode_and_records_witness :
    DBPF._index_entries srcZeros36 h0 =
      .ok (entriesAt srcZeros36 (DBPF.index h0).offset 1) ∧
    (entriesAt srcZeros36 (DBPF.index h0).offset 1).length = 1 ∧
    DBPF.records srcZeros36 h0 =
      .ok ((entriesAt srcZeros36 (DBPF.index h0).offset 1).map
        (DBPF.recordOf srcZeros36)) ∧
    ∀ e ∈ entriesAt srcZeros36 (DBPF.index h0).offset 1,
      e.mnPosition + e.mnSizeDecompressed ≤ srcZeros36.length →
        (DBPF.recordOf srcZeros36 e).offset = e.mnPosition ∧
        (DBPF.recordOf srcZeros36 e).length = e.mnSizeDecompressed ∧
        (DBPF.recordOf srcZeros36 e).raw.length = e.mnSizeDecompressed :=
  wellformed_index_decode_and_records srcZeros36 h0 1 (by decide) rfl
    (by decide) (by decide)
